import Mathlib

/-!
Shallow embedding of `mir_scenarios/mir_robocup_states/ros/src/mir_robocup_states/referee_box_states.py`.

Python strings are modelled as `List Char` (`Str`).  Python's slicing
`s[0:n]` / `s[n:]` become `List.take` / `List.drop` (total, as in Python),
single-element indexing `s[0]` / `s[i]` becomes an explicit `head?` /
`get?` match whose `none` branch is an `IndexError` crash outcome, and
`str.split(c)` becomes `pySplit c` (Python's split on an explicit
single-character separator).  `re.findall` with the two non-greedy
patterns used by the source is modelled by `findAngle` / `findParen`.
Unhandled Python exceptions (`IndexError`, `NameError`) escape `execute`;
they are modelled as dedicated crash outcomes, distinct from the
`'wrong_task_format'` return value.
-/

/-- Python strings as lists of characters. -/
abbrev Str := List Char

/-- Character data of a Lean string literal, used to write `Str` constants. -/
def str (s : String) : Str := s.data

/-- Python `text.split(sep)` for a single-character separator:
always returns at least one field; adjacent separators yield empty fields. -/
def pySplit (sep : Char) : Str → List Str
  | [] => [[]]
  | c :: rest =>
    match pySplit sep rest with
    | [] => [[]]
    | f :: fs => if c = sep then [] :: f :: fs else (c :: f) :: fs

/-- Scanner for `re.findall('OPEN(?P<name>.*?)CLOSE', s)` with single-char
delimiters, as the source uses it for `<...>` and `(...)`.  The second
argument is `none` while looking for `openC`, and `some acc` (captured
span so far, reversed) after an `openC`.  A non-greedy match captures up
to the first `closeC`; since `.` does not match a newline, a newline
before any `closeC` aborts the attempt and the scan resumes after it (all
`openC` positions inside the aborted span fail for the same reason, so
resuming after the newline is equivalent to the regex engine's restart
behaviour). -/
def reScan (openC closeC : Char) : Str → Option Str → List Str
  | [], _ => []
  | c :: rest, none =>
    if c = openC then reScan openC closeC rest (some [])
    else reScan openC closeC rest none
  | c :: rest, some acc =>
    if c = closeC then acc.reverse :: reScan openC closeC rest none
    else if c = '\n' then reScan openC closeC rest none
    else reScan openC closeC rest (some (c :: acc))

/-- Model of `re.findall('\\<(?P<name>.*?)\\>', s)`: the left-to-right
non-greedy matches of `<`…`>`, returning the captured spans. -/
def findAngle (s : Str) : List Str := reScan '<' '>' s none

/-- Model of `re.findall('\\((?P<name>.*?)\\)', s)`: the left-to-right
non-greedy matches of `(`…`)`, returning the captured spans. -/
def findParen (s : Str) : List Str := reScan '(' ')' s none

/-- The `Bunch` records appended to `userdata.task_list`.  `Bunch` is a
dynamic attribute bag in the source; a field the constructing call site
does not pass is absent, modelled as `none`. -/
structure Bunch where
  type : Option Str
  location : Option Str
  object_names : Option (List Str)
  object_config : Option Str
  orientation : Option Str
  task : Option Str
deriving Repr, DecidableEq

/-- The check whose `return 'wrong_task_format'` fired (the source logs a
different message at each site before returning the same outcome string). -/
inductive FailStage
  | prefixTag
  | envelope
  | initialLabel
  | goalLabel
deriving Repr, DecidableEq

/-- Result of one `execute` call: the smach outcome string, or an
unhandled Python exception escaping `execute`. -/
inductive Outcome
  | taskReceived
  | wrongTaskFormat (stage : FailStage)
  | indexError
  | nameError
deriving Repr, DecidableEq

/-- The in-place alias substitution `if objs[i] == "V20": objs[i] = "R20"`
performed (only) by `get_basic_transportation_task.execute`. -/
def refereeAlias (o : Str) : Str := if o = str "V20" then str "R20" else o

/-- One iteration of the initial-situation loop of
`get_basic_transportation_task.execute` (lines 153-171): `none` models the
`IndexError` raised by `objs[0]` when the entry has no `(...)` group. -/
def bttInitEntry (item : Str) : Option Bunch :=
  let desired_loc := item.take 2
  let obj_taskspec := item.drop 3
  match findParen obj_taskspec with
  | [] => none
  | grp :: _ =>
    let objs := (pySplit ',' grp).map refereeAlias
    some ⟨some (str "source"), some desired_loc, some objs, none, none, none⟩

/-- One iteration of the goal-situation loop of
`get_basic_transportation_task.execute` (lines 189-208); unlike the
initial loop, the produced `Bunch` carries `object_config`. -/
def bttGoalEntry (item : Str) : Option Bunch :=
  let desired_loc := item.take 2
  let obj_taskspec := item.drop 3
  match findParen obj_taskspec with
  | [] => none
  | grp :: _ =>
    let objs := (pySplit ',' grp).map refereeAlias
    let obj_conf :=
      match pySplit '(' obj_taskspec with
      | [] => []
      | f :: _ => f
    some ⟨some (str "destination"), some desired_loc, some objs, some obj_conf, none, none⟩

/-- Run one of the BTT per-entry loops over the entries found by
`re.findall`, appending to `task_list` as the source does inside the loop;
`false` in the first component means an entry raised `IndexError`,
aborting the call but keeping the records already appended. -/
def runEntries (f : Str → Option Bunch) : List Str → List Bunch → Bool × List Bunch
  | [], tl => (true, tl)
  | item :: rest, tl =>
    match f item with
    | none => (false, tl)
    | some b => runEntries f rest (tl ++ [b])

/-- Lines 133-209 of `get_basic_transportation_task.execute`: everything
after the envelope has been stripped (`t2` is the text between the outer
`<` and `>`).  `task_situation[0]` cannot fail (`split` always yields at
least one field); `task_situation[1]` raises `IndexError` when the split
yielded a single field. -/
def bttStage2 (t2 : Str) (task_list : List Bunch) : Outcome × List Bunch :=
  match pySplit ';' t2 with
  | [] => (.indexError, task_list)
  | initial_situation :: restFields =>
    if initial_situation.take 16 ≠ str "initialsituation" then
      (.wrongTaskFormat .initialLabel, task_list)
    else
      let init_tasks := findAngle (initial_situation.drop 16)
      match runEntries bttInitEntry init_tasks task_list with
      | (false, tl1) => (.indexError, tl1)
      | (true, tl1) =>
        match restFields.head? with
        | none => (.indexError, tl1)
        | some goal_situation =>
          if goal_situation.take 13 ≠ str "goalsituation" then
            (.wrongTaskFormat .goalLabel, tl1)
          else
            let goal_tasks := findAngle (goal_situation.drop 13)
            match runEntries bttGoalEntry goal_tasks tl1 with
            | (false, tl2) => (.indexError, tl2)
            | (true, tl2) => (.taskReceived, tl2)

/-- `get_basic_transportation_task.execute` (lines 105-209), with the
network fetch replaced by the raw specification string argument and
`userdata.task_list` passed and returned explicitly.  Lines 117-131
(prefix tag and envelope checks) here, the rest in `bttStage2`. -/
def bttExecute (transportation_task : Str) (task_list : List Bunch) : Outcome × List Bunch :=
  if transportation_task.take 3 ≠ str "BTT" then
    (.wrongTaskFormat .prefixTag, task_list)
  else
    let t1 := transportation_task.drop 3
    match t1.head? with
    | none => (.indexError, task_list)
    | some c0 =>
      if c0 ≠ '<' then (.wrongTaskFormat .envelope, task_list)
      else if t1.getLast? ≠ some '>' then (.wrongTaskFormat .envelope, task_list)
      else bttStage2 ((t1.drop 1).dropLast) task_list

/-- One iteration of either loop of `get_basic_competitive_task.execute`
(lines 259-277 and 296-315).  `base_orientation` is a plain local of the
Python `execute`, so its binding survives from one iteration — and from
the initial-situation loop — to the next: it is threaded as `ore`
(`none` = still unbound, reading it raises `NameError`).  CTT entries do
not get the V20 alias substitution.  `item[0]` on an empty entry raises
`IndexError`. -/
def cttEntry (taskLabel : Str) (ore : Option Str) (item : Str) :
    Except Outcome (Bunch × Option Str) :=
  match item.head? with
  | none => .error .indexError
  | some c0 =>
    let desired_loc := item.take 2
    let ore2 :=
      if c0 = 'D' then some (str "W")
      else if c0 = 'S' then some (str "E")
      else ore
    let obj_taskspec := item.drop 3
    match findParen obj_taskspec with
    | [] => .error .indexError
    | grp :: _ =>
      let objs := pySplit ',' grp
      let obj_conf :=
        match pySplit '(' obj_taskspec with
        | [] => []
        | f :: _ => f
      match ore2 with
      | none => .error .nameError
      | some base_orientation =>
        .ok (⟨none, some desired_loc, some objs, some obj_conf,
              some base_orientation, some taskLabel⟩, ore2)

/-- Run one of the CTT per-entry loops, threading `base_orientation`
through the iterations and appending to `task_list`. -/
def runCttEntries (taskLabel : Str) :
    List Str → Option Str → List Bunch → Option Outcome × Option Str × List Bunch
  | [], ore, tl => (none, ore, tl)
  | item :: rest, ore, tl =>
    match cttEntry taskLabel ore item with
    | .error e => (some e, ore, tl)
    | .ok (b, ore2) => runCttEntries taskLabel rest ore2 (tl ++ [b])

/-- Lines 239-318 of `get_basic_competitive_task.execute`: everything
after the envelope has been stripped.  `base_orientation` starts unbound
(`none`) and the binding left by the initial-situation loop is visible to
the goal-situation loop. -/
def cttStage2 (t2 : Str) (task_list : List Bunch) : Outcome × List Bunch :=
  match pySplit ';' t2 with
  | [] => (.indexError, task_list)
  | initial_situation :: restFields =>
    if initial_situation.take 16 ≠ str "initialsituation" then
      (.wrongTaskFormat .initialLabel, task_list)
    else
      let init_tasks := findAngle (initial_situation.drop 16)
      match runCttEntries (str "fetch object workspace") init_tasks none task_list with
      | (some e, _, tl1) => (e, tl1)
      | (none, ore1, tl1) =>
        match restFields.head? with
        | none => (.indexError, tl1)
        | some goal_situation =>
          if goal_situation.take 13 ≠ str "goalsituation" then
            (.wrongTaskFormat .goalLabel, tl1)
          else
            let goal_tasks := findAngle (goal_situation.drop 13)
            match runCttEntries (str "place object in workspace") goal_tasks ore1 tl1 with
            | (some e, _, tl2) => (e, tl2)
            | (none, _, tl2) => (.taskReceived, tl2)

/-- `get_basic_competitive_task.execute` (lines 216-318), with the network
fetch replaced by the raw specification string argument and
`userdata.task_list` passed and returned explicitly.  Lines 223-237
(prefix tag and envelope checks) here, the rest in `cttStage2`. -/
def cttExecute (competitive_task : Str) (task_list : List Bunch) : Outcome × List Bunch :=
  if competitive_task.take 3 ≠ str "CTT" then
    (.wrongTaskFormat .prefixTag, task_list)
  else
    let t1 := competitive_task.drop 3
    match t1.head? with
    | none => (.indexError, task_list)
    | some c0 =>
      if c0 ≠ '<' then (.wrongTaskFormat .envelope, task_list)
      else if t1.getLast? ≠ some '>' then (.wrongTaskFormat .envelope, task_list)
      else cttStage2 ((t1.drop 1).dropLast) task_list

/-- `get_task.HARDCODED_SPECS` (lines 47-50); `none` models the `KeyError`
of `HARDCODED_SPECS[userdata.test]` for any other test type. -/
def hardcodedSpecs (test : Str) : Option Str :=
  if test = str "BNT" then
    some (str "BNT<(D,W,3),(S1,E,3),(T3,N,3),(S3,S,3),(T1,S,3),(D1,E,3),(S4,N,3),(S5,N,3),(T4,W,3),(T2,S,3),(S2,E,3),(EXIT,E,3)>")
  else if test = str "BMT" then
    some (str "BMT<D1,D1,D1,line(F20_20_B,R20,M20_100),D1>")
  else if test = str "BTT" then
    some (str "BTT<initialsituation(<S1,(M20_100,S40_40_G)><S2,(F20_20_G,S40_40_B,F20_20_B)>);goalsituation(<S3,line(S40_40_G,F20_20_G)><D1,zigzag(F20_20_B,S40_40_B,M20_100)>)>")
  else if test = str "PPT" then
    some (str "PPT<S6,S5>")
  else none

/-- Outcome of a `get_task` / `re_get_task` call: the smach outcome
string, or the `KeyError` escaping `HARDCODED_SPECS[userdata.test]`. -/
inductive GetOutcome
  | taskReceived
  | wrongTaskFormat
  | keyError
deriving Repr, DecidableEq

/-- `get_task.execute` (lines 59-76).  `tasks.parse_task` lives outside
this repository's sources, so the function is parametric in
`parse : test → spec → Except unit task` (an exception models
`TaskSpecFormatError`).  The fields returned are the smach outcome, the
parsed `userdata.task` and the stored `userdata.task_spec_copy` (written
before the `try`, hence present on parse failure too). -/
def getTaskExecute {τ : Type} (parse : Str → Str → Except Unit τ)
    (test : Str) (simulation : Bool) (serverSpec : Str) :
    GetOutcome × Option τ × Option Str :=
  let spec? := if ¬ simulation then some serverSpec else hardcodedSpecs test
  match spec? with
  | none => (.keyError, none, none)
  | some task_spec =>
    match parse test task_spec with
    | .ok t => (.taskReceived, some t, some task_spec)
    | .error _ => (.wrongTaskFormat, none, some task_spec)

/-- `re_get_task.execute` (lines 87-97): re-parses the cached
`userdata.task_spec_copy` with the same `tasks.parse_task`. -/
def reGetTaskExecute {τ : Type} (parse : Str → Str → Except Unit τ)
    (test : Str) (task_spec_copy : Str) : GetOutcome × Option τ :=
  match parse test task_spec_copy with
  | .ok t => (.taskReceived, some t)
  | .error _ => (.wrongTaskFormat, none)

/-! ### Derived record constructors and helper lemmas -/

/-- The record built by one successful initial-situation iteration of the
BTT loop, as a total function (callers supply entries whose
`findParen` group exists). -/
def bttInitRecord (item : Str) : Bunch :=
  let grp := (findParen (item.drop 3)).headD []
  ⟨some (str "source"), some (item.take 2),
   some ((pySplit ',' grp).map refereeAlias), none, none, none⟩

/-- The record built by one successful goal-situation iteration of the
BTT loop, as a total function. -/
def bttGoalRecord (item : Str) : Bunch :=
  let grp := (findParen (item.drop 3)).headD []
  let obj_conf :=
    match pySplit '(' (item.drop 3) with
    | [] => []
    | f :: _ => f
  ⟨some (str "destination"), some (item.take 2),
   some ((pySplit ',' grp).map refereeAlias), some obj_conf, none, none⟩

/-- An entry string that one of the BTT loops parses without raising:
it contains none of the delimiters consumed at an outer level and its
remainder after the location token has a parenthesized object group. -/
def goodEntry (e : Str) : Prop :=
  '>' ∉ e ∧ '\n' ∉ e ∧ ';' ∉ e ∧ findParen (e.drop 3) ≠ []

instance (e : Str) : Decidable (goodEntry e) := by
  unfold goodEntry; infer_instance

/-- The text between a situation label's `(` and `)` when the entries are
written back-to-back: `<e1><e2>...<en>`. -/
def sitBody (E : List Str) : Str := (E.map (fun e => '<' :: (e ++ ['>']))).flatten

/-- A well-formed `initialsituation(...)` field with the given entries. -/
def initField (I : List Str) : Str :=
  str "initialsituation" ++ '(' :: (sitBody I ++ [')'])

/-- A well-formed `goalsituation(...)` field with the given entries. -/
def goalField (G : List Str) : Str :=
  str "goalsituation" ++ '(' :: (sitBody G ++ [')'])

/-- A well-formed BTT specification string with the given initial and
goal entries. -/
def bttRender (I G : List Str) : Str :=
  str "BTT" ++ '<' :: ((initField I ++ ';' :: goalField G) ++ ['>'])

/-- A BTT specification string whose envelope body has a third
`;`-separated field after the two situations. -/
def bttRenderExtra (I G : List Str) (junk : Str) : Str :=
  str "BTT" ++ '<' :: ((initField I ++ ';' :: (goalField G ++ ';' :: junk)) ++ ['>'])

/-- A sample `tasks.parse_task` stand-in used to instantiate the
parse-function parameter of `getTaskExecute` in concrete witnesses. -/
def demoParse (test spec : Str) : Except Unit Nat :=
  if test = [] ∨ spec = [] then .error () else .ok spec.length

/-- The `obj_conf` value computed from an entry: the text of the entry's
remainder after the location token that precedes its first `(`
(`obj_taskspec.split('(')[0]`). -/
def objConf (item : Str) : Str :=
  match pySplit '(' (item.drop 3) with
  | [] => []
  | f :: _ => f

/-- An entry string that one of the CTT loops parses without raising and
without reading a stale `base_orientation`: a `goodEntry` whose leading
character has an orientation mapping (`D` or `S`). -/
def goodCttEntry (e : Str) : Prop :=
  goodEntry e ∧ (e.head? = some 'D' ∨ e.head? = some 'S')

instance (e : Str) : Decidable (goodCttEntry e) := by
  unfold goodCttEntry; infer_instance

/-- The record built by one successful CTT loop iteration on an entry
whose leading character is `D` or `S`, as a total function of the entry
(such an iteration does not read the inherited `base_orientation`). -/
def cttRecord (taskLabel : Str) (item : Str) : Bunch :=
  let grp := (findParen (item.drop 3)).headD []
  ⟨none, some (item.take 2), some (pySplit ',' grp), some (objConf item),
   if item.head? = some 'D' then some (str "W") else some (str "E"), some taskLabel⟩

/-- A CTT specification string whose envelope body has a third
`;`-separated field after the two situations. -/
def cttRenderExtra (I G : List Str) (junk : Str) : Str :=
  str "CTT" ++ '<' :: ((initField I ++ ';' :: (goalField G ++ ';' :: junk)) ++ ['>'])

theorem bttInitEntry_eq_of_goodEntry {e : Str} (h : findParen (e.drop 3) ≠ []) :
    bttInitEntry e = some (bttInitRecord e) := by
  unfold bttInitEntry bttInitRecord
  cases hg : findParen (e.drop 3) with
  | nil => exact absurd hg h
  | cons g gs => simp [hg]

theorem bttGoalEntry_eq_of_goodEntry {e : Str} (h : findParen (e.drop 3) ≠ []) :
    bttGoalEntry e = some (bttGoalRecord e) := by
  unfold bttGoalEntry bttGoalRecord
  cases hg : findParen (e.drop 3) with
  | nil => exact absurd hg h
  | cons g gs => simp [hg]

theorem runEntries_map {f : Str → Option Bunch} {g : Str → Bunch} :
    ∀ {items : List Str} (tl : List Bunch), (∀ e ∈ items, f e = some (g e)) →
      runEntries f items tl = (true, tl ++ items.map g) := by
  intro items
  induction items with
  | nil => intro tl _; simp [runEntries]
  | cons e rest ih =>
    intro tl h
    have he : f e = some (g e) := h e (by simp)
    simp only [runEntries, he]
    rw [ih (tl ++ [g e]) (fun x hx => h x (by simp [hx]))]
    simp

theorem runEntries_extend (f : Str → Option Bunch) :
    ∀ (items : List Str) (tl : List Bunch), ∃ ext, (runEntries f items tl).2 = tl ++ ext := by
  intro items
  induction items with
  | nil => intro tl; exact ⟨[], by simp [runEntries]⟩
  | cons e rest ih =>
    intro tl
    cases he : f e with
    | none => exact ⟨[], by simp [runEntries, he]⟩
    | some b =>
      obtain ⟨ext, hext⟩ := ih (tl ++ [b])
      exact ⟨b :: ext, by simp [runEntries, he, hext]⟩

theorem runEntries_mem {f : Str → Option Bunch} :
    ∀ {items : List Str} {tl : List Bunch} {b : Bunch}, b ∈ (runEntries f items tl).2 →
      b ∈ tl ∨ ∃ e, f e = some b := by
  intro items
  induction items with
  | nil => intro tl b h; exact .inl (by simpa [runEntries] using h)
  | cons e rest ih =>
    intro tl b h
    cases he : f e with
    | none =>
      rw [runEntries, he] at h
      exact .inl h
    | some b2 =>
      rw [runEntries, he] at h
      rcases ih h with h2 | h2
      · rcases List.mem_append.mp h2 with h3 | h3
        · exact .inl h3
        · have hb : b = b2 := List.mem_singleton.mp h3
          exact .inr ⟨e, by rw [he, hb]⟩
      · exact .inr h2

theorem pySplit_no_sep {sep : Char} : ∀ {xs : Str}, sep ∉ xs → pySplit sep xs = [xs] := by
  intro xs
  induction xs with
  | nil => intro _; rfl
  | cons c rest ih =>
    intro h
    have hc : ¬ c = sep := fun hc => h (by simp [hc])
    have hrest : sep ∉ rest := fun hm => h (by simp [hm])
    rw [pySplit, ih hrest]
    simp [hc]

theorem pySplit_append {sep : Char} :
    ∀ {xs : Str} (ys : Str), sep ∉ xs → pySplit sep (xs ++ sep :: ys) = xs :: pySplit sep ys := by
  intro xs
  induction xs with
  | nil =>
    intro ys _
    cases hy : pySplit sep ys with
    | nil => simp [pySplit, hy]
    | cons f fs => simp [pySplit, hy]
  | cons c rest ih =>
    intro ys h
    have hc : ¬ c = sep := fun hc => h (by simp [hc])
    have hrest : sep ∉ rest := fun hm => h (by simp [hm])
    rw [List.cons_append, pySplit, ih ys hrest]
    simp [hc]

theorem reScan_inside {openC closeC : Char} {e : Str} :
    ∀ (acc rest : Str), closeC ∉ e → '\n' ∉ e →
      reScan openC closeC (e ++ closeC :: rest) (some acc)
        = (acc.reverse ++ e) :: reScan openC closeC rest none := by
  induction e with
  | nil =>
    intro acc rest _ _
    simp [reScan]
  | cons c e' ih =>
    intro acc rest h1 h2
    have hc : ¬ c = closeC := fun hh => h1 (by simp [hh])
    have hn : ¬ c = '\n' := fun hh => h2 (by simp [hh])
    rw [List.cons_append, reScan, if_neg hc, if_neg hn,
        ih (c :: acc) rest (fun hm => h1 (by simp [hm])) (fun hm => h2 (by simp [hm]))]
    simp

theorem reScan_skip {openC closeC : Char} {x : Str} :
    ∀ (tail : Str), openC ∉ x →
      reScan openC closeC (x ++ tail) none = reScan openC closeC tail none := by
  induction x with
  | nil => intro tail _; rfl
  | cons c x' ih =>
    intro tail h
    have hc : ¬ c = openC := fun hh => h (by simp [hh])
    rw [List.cons_append, reScan, if_neg hc]
    exact ih tail (fun hm => h (by simp [hm]))

theorem reScan_sitBody {E : List Str} (tail : Str) (h : ∀ e ∈ E, '>' ∉ e ∧ '\n' ∉ e) :
    reScan '<' '>' (sitBody E ++ tail) none = E ++ reScan '<' '>' tail none := by
  induction E with
  | nil => simp [sitBody]
  | cons e rest ih =>
    have he := h e (by simp)
    have hshape : sitBody (e :: rest) ++ tail = '<' :: (e ++ '>' :: (sitBody rest ++ tail)) := by
      simp [sitBody]
    rw [hshape, reScan, if_pos rfl, reScan_inside [] (sitBody rest ++ tail) he.1 he.2,
        ih (fun x hx => h x (by simp [hx]))]
    simp

theorem not_mem_sitBody {c : Char} {E : List Str} (hlt : c ≠ '<') (hgt : c ≠ '>')
    (h : ∀ e ∈ E, c ∉ e) : c ∉ sitBody E := by
  intro hc
  unfold sitBody at hc
  rcases List.mem_flatten.mp hc with ⟨piece, hp, hcp⟩
  rcases List.mem_map.mp hp with ⟨e, he, rfl⟩
  rcases List.mem_cons.mp hcp with h1 | h1
  · exact hlt h1
  · rcases List.mem_append.mp h1 with h2 | h2
    · exact h e he h2
    · exact hgt (List.mem_singleton.mp h2)

theorem semi_not_mem_initField {I : List Str} (hI : ∀ e ∈ I, goodEntry e) :
    ';' ∉ initField I := by
  unfold initField
  intro hm
  rcases List.mem_append.mp hm with h1 | h1
  · revert h1; decide
  · rcases List.mem_cons.mp h1 with h2 | h2
    · exact absurd h2 (by decide)
    · rcases List.mem_append.mp h2 with h3 | h3
      · exact not_mem_sitBody (by decide) (by decide) (fun e he => (hI e he).2.2.1) h3
      · exact absurd (List.mem_singleton.mp h3) (by decide)

theorem semi_not_mem_goalField {G : List Str} (hG : ∀ e ∈ G, goodEntry e) :
    ';' ∉ goalField G := by
  unfold goalField
  intro hm
  rcases List.mem_append.mp hm with h1 | h1
  · revert h1; decide
  · rcases List.mem_cons.mp h1 with h2 | h2
    · exact absurd h2 (by decide)
    · rcases List.mem_append.mp h2 with h3 | h3
      · exact not_mem_sitBody (by decide) (by decide) (fun e he => (hG e he).2.2.1) h3
      · exact absurd (List.mem_singleton.mp h3) (by decide)

theorem findAngle_sitField {E : List Str} (hE : ∀ e ∈ E, goodEntry e) :
    findAngle ('(' :: (sitBody E ++ [')'])) = E := by
  unfold findAngle
  rw [show reScan '<' '>' ('(' :: (sitBody E ++ [')'])) none
        = reScan '<' '>' (sitBody E ++ [')']) none from by rw [reScan, if_neg (by decide)]]
  rw [reScan_sitBody [')'] (fun e he => ⟨(hE e he).1, (hE e he).2.1⟩)]
  simp [reScan]

theorem bttExecute_envelope (core : Str) (tl : List Bunch) :
    bttExecute (str "BTT" ++ '<' :: (core ++ ['>'])) tl = bttStage2 core tl := by
  have hc1 : ¬((str "BTT" ++ '<' :: (core ++ ['>'])).take 3 ≠ str "BTT") := fun hne => hne rfl
  have hlast : (('<' : Char) :: (core ++ ['>'])).getLast? = some '>' := by
    rw [← List.cons_append]
    exact List.getLast?_concat _
  have hdl : ((('<' : Char) :: (core ++ ['>'])).drop 1).dropLast = core := by
    show (core ++ ['>']).dropLast = core
    exact List.dropLast_concat
  unfold bttExecute
  rw [if_neg hc1]
  show (match (('<' : Char) :: (core ++ ['>'])).head? with
    | none => (Outcome.indexError, tl)
    | some c0 =>
      if c0 ≠ '<' then (.wrongTaskFormat .envelope, tl)
      else if (('<' : Char) :: (core ++ ['>'])).getLast? ≠ some '>' then
        (.wrongTaskFormat .envelope, tl)
      else bttStage2 (((('<' : Char) :: (core ++ ['>'])).drop 1).dropLast) tl) = bttStage2 core tl
  rw [List.head?_cons]
  show (if ('<' : Char) ≠ '<' then (.wrongTaskFormat .envelope, tl)
    else if (('<' : Char) :: (core ++ ['>'])).getLast? ≠ some '>' then
      (.wrongTaskFormat .envelope, tl)
    else bttStage2 (((('<' : Char) :: (core ++ ['>'])).drop 1).dropLast) tl) = bttStage2 core tl
  rw [if_neg (fun h => h rfl), hdl]
  rw [if_neg (fun h => h hlast)]

theorem cttExecute_envelope (core : Str) (tl : List Bunch) :
    cttExecute (str "CTT" ++ '<' :: (core ++ ['>'])) tl = cttStage2 core tl := by
  have hc1 : ¬((str "CTT" ++ '<' :: (core ++ ['>'])).take 3 ≠ str "CTT") := fun hne => hne rfl
  have hlast : (('<' : Char) :: (core ++ ['>'])).getLast? = some '>' := by
    rw [← List.cons_append]
    exact List.getLast?_concat _
  have hdl : ((('<' : Char) :: (core ++ ['>'])).drop 1).dropLast = core := by
    show (core ++ ['>']).dropLast = core
    exact List.dropLast_concat
  unfold cttExecute
  rw [if_neg hc1]
  show (match (('<' : Char) :: (core ++ ['>'])).head? with
    | none => (Outcome.indexError, tl)
    | some c0 =>
      if c0 ≠ '<' then (.wrongTaskFormat .envelope, tl)
      else if (('<' : Char) :: (core ++ ['>'])).getLast? ≠ some '>' then
        (.wrongTaskFormat .envelope, tl)
      else cttStage2 (((('<' : Char) :: (core ++ ['>'])).drop 1).dropLast) tl) = cttStage2 core tl
  rw [List.head?_cons]
  show (if ('<' : Char) ≠ '<' then (.wrongTaskFormat .envelope, tl)
    else if (('<' : Char) :: (core ++ ['>'])).getLast? ≠ some '>' then
      (.wrongTaskFormat .envelope, tl)
    else cttStage2 (((('<' : Char) :: (core ++ ['>'])).drop 1).dropLast) tl) = cttStage2 core tl
  rw [if_neg (fun h => h rfl), hdl]
  rw [if_neg (fun h => h hlast)]

theorem bttStage2_of_split {t2 : Str} {rest : List Str} (I G : List Str) (tl : List Bunch)
    (hI : ∀ e ∈ I, goodEntry e) (hG : ∀ e ∈ G, goodEntry e)
    (hsplit : pySplit ';' t2 = initField I :: goalField G :: rest) :
    bttStage2 t2 tl
      = (.taskReceived, tl ++ I.map bttInitRecord ++ G.map bttGoalRecord) := by
  have ht16 : ¬((initField I).take 16 ≠ str "initialsituation") := fun hne => hne rfl
  have hd16 : (initField I).drop 16 = '(' :: (sitBody I ++ [')']) := rfl
  have ht13 : ¬((goalField G).take 13 ≠ str "goalsituation") := fun hne => hne rfl
  have hd13 : (goalField G).drop 13 = '(' :: (sitBody G ++ [')']) := rfl
  have hrunI : runEntries bttInitEntry I tl = (true, tl ++ I.map bttInitRecord) :=
    runEntries_map tl (fun e he => bttInitEntry_eq_of_goodEntry (hI e he).2.2.2)
  have hrunG : runEntries bttGoalEntry G (tl ++ I.map bttInitRecord)
      = (true, tl ++ I.map bttInitRecord ++ G.map bttGoalRecord) :=
    runEntries_map _ (fun e he => bttGoalEntry_eq_of_goodEntry (hG e he).2.2.2)
  unfold bttStage2
  rw [hsplit]
  show (if (initField I).take 16 ≠ str "initialsituation" then
      (Outcome.wrongTaskFormat .initialLabel, tl)
    else
      match runEntries bttInitEntry (findAngle ((initField I).drop 16)) tl with
      | (false, tl1) => (.indexError, tl1)
      | (true, tl1) =>
        match (goalField G :: rest).head? with
        | none => (.indexError, tl1)
        | some goal_situation =>
          if goal_situation.take 13 ≠ str "goalsituation" then
            (.wrongTaskFormat .goalLabel, tl1)
          else
            match runEntries bttGoalEntry (findAngle (goal_situation.drop 13)) tl1 with
            | (false, tl2) => (.indexError, tl2)
            | (true, tl2) => (.taskReceived, tl2)) = _
  rw [if_neg ht16, hd16, findAngle_sitField hI, hrunI]
  show (match (goalField G :: rest).head? with
    | none => (Outcome.indexError, tl ++ I.map bttInitRecord)
    | some goal_situation =>
      if goal_situation.take 13 ≠ str "goalsituation" then
        (.wrongTaskFormat .goalLabel, tl ++ I.map bttInitRecord)
      else
        match runEntries bttGoalEntry (findAngle (goal_situation.drop 13))
            (tl ++ I.map bttInitRecord) with
        | (false, tl2) => (.indexError, tl2)
        | (true, tl2) => (.taskReceived, tl2)) = _
  rw [List.head?_cons]
  show (if (goalField G).take 13 ≠ str "goalsituation" then
      (Outcome.wrongTaskFormat .goalLabel, tl ++ I.map bttInitRecord)
    else
      match runEntries bttGoalEntry (findAngle ((goalField G).drop 13))
          (tl ++ I.map bttInitRecord) with
      | (false, tl2) => (.indexError, tl2)
      | (true, tl2) => (.taskReceived, tl2)) = _
  rw [if_neg ht13, hd13, findAngle_sitField hG, hrunG]

theorem bttStage2_render (I G : List Str) (tl : List Bunch)
    (hI : ∀ e ∈ I, goodEntry e) (hG : ∀ e ∈ G, goodEntry e) :
    bttStage2 (initField I ++ ';' :: goalField G) tl
      = (.taskReceived, tl ++ I.map bttInitRecord ++ G.map bttGoalRecord) :=
  bttStage2_of_split I G tl hI hG
    (by rw [pySplit_append _ (semi_not_mem_initField hI),
            pySplit_no_sep (semi_not_mem_goalField hG)])

theorem bttStage2_renderExtra (I G : List Str) (junk : Str) (tl : List Bunch)
    (hI : ∀ e ∈ I, goodEntry e) (hG : ∀ e ∈ G, goodEntry e) (hj : ';' ∉ junk) :
    bttStage2 (initField I ++ ';' :: (goalField G ++ ';' :: junk)) tl
      = (.taskReceived, tl ++ I.map bttInitRecord ++ G.map bttGoalRecord) :=
  bttStage2_of_split I G tl hI hG
    (by rw [pySplit_append _ (semi_not_mem_initField hI),
            pySplit_append _ (semi_not_mem_goalField hG), pySplit_no_sep hj])

/-! ### Claim theorems -/

/-- C9: for every input string whose first three characters differ from
the declared task type's tag (`BTT` for the transportation parser, `CTT`
for the competitive parser), `execute` returns the failure outcome at the
prefix-tag check and leaves the caller's `task_list` unchanged. -/
theorem claim_C9_prefix_validation :
    (∀ s tl, s.take 3 ≠ str "BTT" → bttExecute s tl = (.wrongTaskFormat .prefixTag, tl)) ∧
    (∀ s tl, s.take 3 ≠ str "CTT" → cttExecute s tl = (.wrongTaskFormat .prefixTag, tl)) := by
  constructor
  · intro s tl h
    unfold bttExecute
    rw [if_pos h]
  · intro s tl h
    unfold cttExecute
    rw [if_pos h]

theorem claim_C9_witness :
    bttExecute (str "XTT<initialsituation();goalsituation()>") []
        = (.wrongTaskFormat .prefixTag, []) ∧
      cttExecute (str "BTT<initialsituation();goalsituation()>") []
        = (.wrongTaskFormat .prefixTag, []) :=
  ⟨claim_C9_prefix_validation.1 _ [] (by decide),
   claim_C9_prefix_validation.2 _ [] (by decide)⟩

/-- C2 counterexample: the input consisting of just the task-type tag is
malformed, yet the parse does not return the failure outcome — it raises
an uncaught `IndexError` (`transportation_task[0]` on the empty
remainder), contradicting the claimed totality on malformed data. -/
theorem claim_C2_counterexample :
    bttExecute (str "BTT") [] = (.indexError, []) := by decide

/-- C2 amended: parsing of malformed data is not exception-free.  The
tag-only input crashes at the envelope indexing (`task[0]`), an input
whose body splits into a single field crashes at `task_situation[1]`
(after the initial-situation records were already appended), and an entry
with no parenthesized object group crashes at `objs[0]`; in each case the
call ends in an uncaught `IndexError` instead of the
`'wrong_task_format'` outcome. -/
theorem claim_C2_amended :
    bttExecute (str "BTT") [] = (.indexError, []) ∧
    cttExecute (str "CTT") [] = (.indexError, []) ∧
    bttExecute (str "BTT<initialsituation(<S1,(M20_100)>)>") []
      = (.indexError,
         [⟨some (str "source"), some (str "S1"), some [str "M20_100"], none, none, none⟩]) ∧
    bttExecute (str "BTT<initialsituation(<S1,M20_100>);goalsituation(<D1,(A)>)>") []
      = (.indexError, []) := by decide

/-- C3 counterexample: an input whose envelope body splits on `;` into
three fields is not rejected with a field-count failure — the parse
succeeds and the third field is silently ignored. -/
theorem claim_C3_counterexample :
    bttExecute (str "BTT<initialsituation(<S1,(A)>);goalsituation(<D1,(A)>);extrafield>") []
      = (.taskReceived,
         [⟨some (str "source"), some (str "S1"), some [str "A"], none, none, none⟩,
          ⟨some (str "destination"), some (str "D1"), some [str "A"], some [], none, none⟩]) := by
  decide

theorem cttEntry_eq_of_goodCttEntry (lbl : Str) {e : Str} (ore : Option Str)
    (h4 : findParen (e.drop 3) ≠ [])
    (h5 : e.head? = some 'D' ∨ e.head? = some 'S') :
    cttEntry lbl ore e
      = .ok (cttRecord lbl e,
             if e.head? = some 'D' then some (str "W") else some (str "E")) := by
  rcases h5 with hh | hh
  · have hor : (if e.head? = some 'D' then some (str "W") else some (str "E"))
        = some (str "W") := by rw [hh]; decide
    rw [hor]
    simp only [cttEntry, hh]
    cases hfp : findParen (e.drop 3) with
    | nil => exact absurd hfp h4
    | cons grp rest =>
      simp only [reduceIte]
      simp [cttRecord, objConf, hfp, hor]
  · have hor : (if e.head? = some 'D' then some (str "W") else some (str "E"))
        = some (str "E") := by rw [hh]; decide
    rw [hor]
    simp only [cttEntry, hh]
    cases hfp : findParen (e.drop 3) with
    | nil => exact absurd hfp h4
    | cons grp rest =>
      rw [if_neg (show ¬('S' : Char) = 'D' by decide)]
      simp only [reduceIte]
      simp [cttRecord, objConf, hfp, hor]

theorem runCttEntries_ok (lbl : Str) :
    ∀ {items : List Str} (ore : Option Str) (tl : List Bunch),
      (∀ e ∈ items, goodCttEntry e) →
      ∃ oreF, runCttEntries lbl items ore tl
        = (none, oreF, tl ++ items.map (cttRecord lbl)) := by
  intro items
  induction items with
  | nil => intro ore tl _; exact ⟨ore, by simp [runCttEntries]⟩
  | cons e rest ih =>
    intro ore tl h
    have he := h e (by simp)
    have hee := cttEntry_eq_of_goodCttEntry lbl ore he.1.2.2.2 he.2
    obtain ⟨oreF, hF⟩ := ih (if e.head? = some 'D' then some (str "W") else some (str "E"))
      (tl ++ [cttRecord lbl e]) (fun x hx => h x (by simp [hx]))
    refine ⟨oreF, ?_⟩
    simp only [runCttEntries, hee]
    rw [hF]
    simp

theorem cttStage2_of_split {t2 : Str} {rest : List Str} (I G : List Str) (tl : List Bunch)
    (hI : ∀ e ∈ I, goodCttEntry e) (hG : ∀ e ∈ G, goodCttEntry e)
    (hsplit : pySplit ';' t2 = initField I :: goalField G :: rest) :
    cttStage2 t2 tl
      = (.taskReceived, tl ++ I.map (cttRecord (str "fetch object workspace"))
          ++ G.map (cttRecord (str "place object in workspace"))) := by
  have ht16 : ¬((initField I).take 16 ≠ str "initialsituation") := fun hne => hne rfl
  have hd16 : (initField I).drop 16 = '(' :: (sitBody I ++ [')']) := rfl
  have ht13 : ¬((goalField G).take 13 ≠ str "goalsituation") := fun hne => hne rfl
  have hd13 : (goalField G).drop 13 = '(' :: (sitBody G ++ [')']) := rfl
  obtain ⟨ore1, hrun1⟩ := runCttEntries_ok (str "fetch object workspace") none tl hI
  obtain ⟨ore2, hrun2⟩ := runCttEntries_ok (str "place object in workspace") ore1
    (tl ++ I.map (cttRecord (str "fetch object workspace"))) hG
  unfold cttStage2
  rw [hsplit]
  show (if (initField I).take 16 ≠ str "initialsituation" then
      (Outcome.wrongTaskFormat .initialLabel, tl)
    else
      match runCttEntries (str "fetch object workspace")
          (findAngle ((initField I).drop 16)) none tl with
      | (some e, _, tl1) => (e, tl1)
      | (none, ore1, tl1) =>
        match (goalField G :: rest).head? with
        | none => (.indexError, tl1)
        | some goal_situation =>
          if goal_situation.take 13 ≠ str "goalsituation" then
            (.wrongTaskFormat .goalLabel, tl1)
          else
            match runCttEntries (str "place object in workspace")
                (findAngle (goal_situation.drop 13)) ore1 tl1 with
            | (some e, _, tl2) => (e, tl2)
            | (none, _, tl2) => (.taskReceived, tl2)) = _
  rw [if_neg ht16, hd16, findAngle_sitField (fun e he => (hI e he).1), hrun1]
  show (match (goalField G :: rest).head? with
    | none => (Outcome.indexError, tl ++ I.map (cttRecord (str "fetch object workspace")))
    | some goal_situation =>
      if goal_situation.take 13 ≠ str "goalsituation" then
        (.wrongTaskFormat .goalLabel, tl ++ I.map (cttRecord (str "fetch object workspace")))
      else
        match runCttEntries (str "place object in workspace")
            (findAngle (goal_situation.drop 13)) ore1
            (tl ++ I.map (cttRecord (str "fetch object workspace"))) with
        | (some e, _, tl2) => (e, tl2)
        | (none, _, tl2) => (.taskReceived, tl2)) = _
  rw [List.head?_cons]
  show (if (goalField G).take 13 ≠ str "goalsituation" then
      (Outcome.wrongTaskFormat .goalLabel,
       tl ++ I.map (cttRecord (str "fetch object workspace")))
    else
      match runCttEntries (str "place object in workspace")
          (findAngle ((goalField G).drop 13)) ore1
          (tl ++ I.map (cttRecord (str "fetch object workspace"))) with
      | (some e, _, tl2) => (e, tl2)
      | (none, _, tl2) => (.taskReceived, tl2)) = _
  rw [if_neg ht13, hd13, findAngle_sitField (fun e he => (hG e he).1), hrun2]

theorem cttStage2_renderExtra (I G : List Str) (junk : Str) (tl : List Bunch)
    (hI : ∀ e ∈ I, goodCttEntry e) (hG : ∀ e ∈ G, goodCttEntry e) (hj : ';' ∉ junk) :
    cttStage2 (initField I ++ ';' :: (goalField G ++ ';' :: junk)) tl
      = (.taskReceived, tl ++ I.map (cttRecord (str "fetch object workspace"))
          ++ G.map (cttRecord (str "place object in workspace"))) :=
  cttStage2_of_split I G tl hI hG
    (by rw [pySplit_append _ (semi_not_mem_initField (fun e he => (hI e he).1)),
            pySplit_append _ (semi_not_mem_goalField (fun e he => (hG e he).1)),
            pySplit_no_sep hj])

/-- C3 amended: neither parser performs field-count validation.  When the
`;`-split of the envelope body yields more than two fields, fields beyond
the second are silently ignored and parsing succeeds on the first two
(first conjunct for the transportation parser, third for the competitive
parser); when it yields a single field, either parse raises an uncaught
`IndexError` at `task_situation[1]` — after appending the
initial-situation records — instead of reporting a field-count error
(second and fourth conjuncts). -/
theorem claim_C3_amended :
    (∀ I G junk tl, (∀ e ∈ I, goodEntry e) → (∀ e ∈ G, goodEntry e) → ';' ∉ junk →
        bttExecute (bttRenderExtra I G junk) tl
          = (.taskReceived, tl ++ I.map bttInitRecord ++ G.map bttGoalRecord)) ∧
    bttExecute (str "BTT<initialsituation(<S1,(A)>)>") []
      = (.indexError,
         [⟨some (str "source"), some (str "S1"), some [str "A"], none, none, none⟩]) ∧
    (∀ I G junk tl, (∀ e ∈ I, goodCttEntry e) → (∀ e ∈ G, goodCttEntry e) → ';' ∉ junk →
        cttExecute (cttRenderExtra I G junk) tl
          = (.taskReceived, tl ++ I.map (cttRecord (str "fetch object workspace"))
              ++ G.map (cttRecord (str "place object in workspace")))) ∧
    cttExecute (str "CTT<initialsituation(<S1,(A)>)>") []
      = (.indexError,
         [⟨none, some (str "S1"), some [str "A"], some [], some (str "E"),
           some (str "fetch object workspace")⟩]) := by
  refine ⟨?_, by decide, ?_, by decide⟩
  · intro I G junk tl hI hG hj
    rw [show bttRenderExtra I G junk
          = str "BTT" ++ '<' :: ((initField I ++ ';' :: (goalField G ++ ';' :: junk)) ++ ['>'])
        from rfl,
        bttExecute_envelope, bttStage2_renderExtra I G junk tl hI hG hj]
  · intro I G junk tl hI hG hj
    rw [show cttRenderExtra I G junk
          = str "CTT" ++ '<' :: ((initField I ++ ';' :: (goalField G ++ ';' :: junk)) ++ ['>'])
        from rfl,
        cttExecute_envelope, cttStage2_renderExtra I G junk tl hI hG hj]

theorem claim_C3_witness :
    bttExecute (bttRenderExtra [str "S1,(A)"] [str "D1,(A)"] (str "extrafield")) []
        = (.taskReceived, [bttInitRecord (str "S1,(A)"), bttGoalRecord (str "D1,(A)")]) ∧
      cttExecute (cttRenderExtra [str "S1,(A)"] [str "D1,(A)"] (str "extrafield")) []
        = (.taskReceived, [cttRecord (str "fetch object workspace") (str "S1,(A)"),
                           cttRecord (str "place object in workspace") (str "D1,(A)")]) :=
  ⟨claim_C3_amended.1 _ _ _ [] (by decide) (by decide) (by decide),
   claim_C3_amended.2.2.1 _ _ _ [] (by decide) (by decide) (by decide)⟩

/-- C7: for well-formed situation bodies the produced records are exactly
the per-entry records, in the entries' left-to-right order (so permuting
entries permutes the records identically, nothing dropped or duplicated);
initial-situation records all precede goal-situation records, the former
tagged `'source'` and the latter `'destination'`. -/
theorem claim_C7_order_preservation :
    (∀ I G tl, (∀ e ∈ I, goodEntry e) → (∀ e ∈ G, goodEntry e) →
        bttExecute (bttRender I G) tl
          = (.taskReceived, tl ++ I.map bttInitRecord ++ G.map bttGoalRecord)) ∧
    (∀ e, (bttInitRecord e).type = some (str "source")) ∧
    (∀ e, (bttGoalRecord e).type = some (str "destination")) := by
  refine ⟨?_, fun e => rfl, fun e => rfl⟩
  intro I G tl hI hG
  rw [show bttRender I G
        = str "BTT" ++ '<' :: ((initField I ++ ';' :: goalField G) ++ ['>']) from rfl,
      bttExecute_envelope, bttStage2_render I G tl hI hG]

theorem claim_C7_witness :
    bttExecute
        (bttRender [str "S1,(M20_100,S40_40_G)", str "S2,(F20_20_G)"]
          [str "D1,zigzag(F20_20_B,M20_100)"]) []
      = (.taskReceived,
         [bttInitRecord (str "S1,(M20_100,S40_40_G)"), bttInitRecord (str "S2,(F20_20_G)"),
          bttGoalRecord (str "D1,zigzag(F20_20_B,M20_100)")]) :=
  claim_C7_order_preservation.1 _ _ [] (by decide) (by decide)


theorem cttEntry_error {lbl : Str} {ore : Option Str} {item : Str} {e : Outcome} :
    cttEntry lbl ore item = .error e → e = .indexError ∨ e = .nameError := by
  intro h
  simp only [cttEntry] at h
  repeat' split at h
  all_goals simp_all

theorem runCttEntries_extend (lbl : Str) :
    ∀ (items : List Str) (ore : Option Str) (tl : List Bunch),
      ∃ ext, (runCttEntries lbl items ore tl).2.2 = tl ++ ext := by
  intro items
  induction items with
  | nil => intro ore tl; exact ⟨[], by simp [runCttEntries]⟩
  | cons e rest ih =>
    intro ore tl
    cases he : cttEntry lbl ore e with
    | error err => exact ⟨[], by simp [runCttEntries, he]⟩
    | ok p =>
      obtain ⟨b, ore2⟩ := p
      obtain ⟨ext, hext⟩ := ih ore2 (tl ++ [b])
      exact ⟨b :: ext, by simp [runCttEntries, he, hext]⟩

theorem runCttEntries_error {lbl : Str} :
    ∀ {items : List Str} {ore : Option Str} {tl : List Bunch} {e : Outcome},
      (runCttEntries lbl items ore tl).1 = some e → e = .indexError ∨ e = .nameError := by
  intro items
  induction items with
  | nil => intro ore tl e h; simp [runCttEntries] at h
  | cons item rest ih =>
    intro ore tl e h
    cases he : cttEntry lbl ore item with
    | error err =>
      rw [runCttEntries, he] at h
      have herr : err = e := by simpa using h
      exact herr ▸ cttEntry_error he
    | ok p =>
      obtain ⟨b, ore2⟩ := p
      rw [runCttEntries, he] at h
      exact ih h

theorem runCttEntries_mem {lbl : Str} :
    ∀ {items : List Str} {ore : Option Str} {tl : List Bunch} {b : Bunch},
      b ∈ (runCttEntries lbl items ore tl).2.2 →
        b ∈ tl ∨ ∃ e o p, cttEntry lbl o e = .ok (b, p) := by
  intro items
  induction items with
  | nil => intro ore tl b h; exact .inl (by simpa [runCttEntries] using h)
  | cons item rest ih =>
    intro ore tl b h
    cases he : cttEntry lbl ore item with
    | error err =>
      rw [runCttEntries, he] at h
      exact .inl h
    | ok p =>
      obtain ⟨b2, ore2⟩ := p
      rw [runCttEntries, he] at h
      rcases ih h with h2 | h2
      · rcases List.mem_append.mp h2 with h3 | h3
        · exact .inl h3
        · have hb : b = b2 := List.mem_singleton.mp h3
          exact .inr ⟨item, ore, ore2, by rw [he, hb]⟩
      · exact .inr h2

theorem bttStage2_extend (t2 : Str) (tl : List Bunch) :
    ∃ ext, (bttStage2 t2 tl).2 = tl ++ ext := by
  simp only [bttStage2]
  split
  · exact ⟨[], by simp⟩
  rename_i init restFields hps
  split
  · exact ⟨[], by simp⟩
  rename_i h16
  split
  · rename_i tl1 heq1
    obtain ⟨e1, he1⟩ := runEntries_extend bttInitEntry (findAngle (init.drop 16)) tl
    rw [heq1] at he1
    exact ⟨e1, he1⟩
  rename_i tl1 heq1
  obtain ⟨e1, he1⟩ := runEntries_extend bttInitEntry (findAngle (init.drop 16)) tl
  rw [heq1] at he1
  split
  · exact ⟨e1, he1⟩
  rename_i gs hgs
  split
  · exact ⟨e1, he1⟩
  rename_i h13
  split
  · rename_i tl2 heq2
    obtain ⟨e2, he2⟩ := runEntries_extend bttGoalEntry (findAngle (gs.drop 13)) tl1
    rw [heq2] at he2
    have h2' : tl2 = tl1 ++ e2 := by simpa using he2
    have h1' : tl1 = tl ++ e1 := by simpa using he1
    exact ⟨e1 ++ e2, by rw [h2', h1', List.append_assoc]⟩
  rename_i tl2 heq2
  obtain ⟨e2, he2⟩ := runEntries_extend bttGoalEntry (findAngle (gs.drop 13)) tl1
  rw [heq2] at he2
  have h2' : tl2 = tl1 ++ e2 := by simpa using he2
  have h1' : tl1 = tl ++ e1 := by simpa using he1
  exact ⟨e1 ++ e2, by rw [h2', h1', List.append_assoc]⟩

theorem bttExecute_extend (s : Str) (tl : List Bunch) :
    ∃ ext, (bttExecute s tl).2 = tl ++ ext := by
  simp only [bttExecute]
  split
  · exact ⟨[], by simp⟩
  split
  · exact ⟨[], by simp⟩
  split
  · exact ⟨[], by simp⟩
  split
  · exact ⟨[], by simp⟩
  exact bttStage2_extend _ tl

theorem cttStage2_extend (t2 : Str) (tl : List Bunch) :
    ∃ ext, (cttStage2 t2 tl).2 = tl ++ ext := by
  simp only [cttStage2]
  split
  · exact ⟨[], by simp⟩
  rename_i init restFields hps
  split
  · exact ⟨[], by simp⟩
  rename_i h16
  split
  · rename_i e ore1 tl1 heq1
    obtain ⟨e1, he1⟩ :=
      runCttEntries_extend (str "fetch object workspace") (findAngle (init.drop 16)) none tl
    rw [heq1] at he1
    exact ⟨e1, he1⟩
  rename_i ore1 tl1 heq1
  obtain ⟨e1, he1⟩ :=
    runCttEntries_extend (str "fetch object workspace") (findAngle (init.drop 16)) none tl
  rw [heq1] at he1
  split
  · exact ⟨e1, he1⟩
  rename_i gs hgs
  split
  · exact ⟨e1, he1⟩
  rename_i h13
  split
  · rename_i e ore2 tl2 heq2
    obtain ⟨e2, he2⟩ :=
      runCttEntries_extend (str "place object in workspace") (findAngle (gs.drop 13)) ore1 tl1
    rw [heq2] at he2
    have h2' : tl2 = tl1 ++ e2 := by simpa using he2
    have h1' : tl1 = tl ++ e1 := by simpa using he1
    exact ⟨e1 ++ e2, by rw [h2', h1', List.append_assoc]⟩
  rename_i ore2 tl2 heq2
  obtain ⟨e2, he2⟩ :=
    runCttEntries_extend (str "place object in workspace") (findAngle (gs.drop 13)) ore1 tl1
  rw [heq2] at he2
  have h2' : tl2 = tl1 ++ e2 := by simpa using he2
  have h1' : tl1 = tl ++ e1 := by simpa using he1
  exact ⟨e1 ++ e2, by rw [h2', h1', List.append_assoc]⟩

theorem cttExecute_extend (s : Str) (tl : List Bunch) :
    ∃ ext, (cttExecute s tl).2 = tl ++ ext := by
  simp only [cttExecute]
  split
  · exact ⟨[], by simp⟩
  split
  · exact ⟨[], by simp⟩
  split
  · exact ⟨[], by simp⟩
  split
  · exact ⟨[], by simp⟩
  exact cttStage2_extend _ tl

theorem bttStage2_wrongFormat {t2 : Str} {tl tl2 : List Bunch} {st : FailStage} :
    bttStage2 t2 tl = (.wrongTaskFormat st, tl2) → st = .goalLabel ∨ tl2 = tl := by
  intro h
  simp only [bttStage2] at h
  repeat' split at h
  all_goals simp_all

theorem bttExecute_wrongFormat {s : Str} {tl tl2 : List Bunch} {st : FailStage} :
    bttExecute s tl = (.wrongTaskFormat st, tl2) → st = .goalLabel ∨ tl2 = tl := by
  intro h
  simp only [bttExecute] at h
  repeat' split at h
  all_goals first
    | exact bttStage2_wrongFormat h
    | simp_all

theorem cttStage2_wrongFormat {t2 : Str} {tl tl2 : List Bunch} {st : FailStage} :
    cttStage2 t2 tl = (.wrongTaskFormat st, tl2) → st = .goalLabel ∨ tl2 = tl := by
  intro h
  simp only [cttStage2] at h
  split at h
  · simp at h
  rename_i init restFields hps
  split at h
  · simp only [Prod.mk.injEq, Outcome.wrongTaskFormat.injEq] at h
    exact .inr h.2.symm
  rename_i h16
  split at h
  · rename_i e ore1 tl1 heq1
    have hcls := runCttEntries_error
      (show (runCttEntries (str "fetch object workspace")
          (findAngle (init.drop 16)) none tl).1 = some e by rw [heq1])
    have he : e = .wrongTaskFormat st := (Prod.mk.injEq _ _ _ _ ▸ h).1
    rcases hcls with rfl | rfl <;> simp at he
  rename_i ore1 tl1 heq1
  split at h
  · simp at h
  rename_i gs hgs
  split at h
  · simp only [Prod.mk.injEq, Outcome.wrongTaskFormat.injEq] at h
    exact .inl h.1.symm
  rename_i h13
  split at h
  · rename_i e ore2 tlg heq2
    have hcls := runCttEntries_error
      (show (runCttEntries (str "place object in workspace")
          (findAngle (gs.drop 13)) ore1 tl1).1 = some e by rw [heq2])
    have he : e = .wrongTaskFormat st := (Prod.mk.injEq _ _ _ _ ▸ h).1
    rcases hcls with rfl | rfl <;> simp at he
  rename_i ore2 tlg heq2
  simp at h

theorem cttExecute_wrongFormat {s : Str} {tl tl2 : List Bunch} {st : FailStage} :
    cttExecute s tl = (.wrongTaskFormat st, tl2) → st = .goalLabel ∨ tl2 = tl := by
  intro h
  simp only [cttExecute] at h
  repeat' split at h
  all_goals first
    | exact cttStage2_wrongFormat h
    | simp_all

theorem bttStage2_mem {t2 : Str} {tl : List Bunch} {b : Bunch} :
    b ∈ (bttStage2 t2 tl).2 →
      b ∈ tl ∨ (∃ e, bttInitEntry e = some b) ∨ (∃ e, bttGoalEntry e = some b) := by
  intro h
  simp only [bttStage2] at h
  split at h
  · exact .inl h
  rename_i init restFields hps
  split at h
  · exact .inl h
  rename_i h16
  split at h
  · rename_i tl1 heq1
    rcases runEntries_mem (show b ∈ (runEntries bttInitEntry
        (findAngle (init.drop 16)) tl).2 by rw [heq1]; exact h) with h2 | h2
    · exact .inl h2
    · exact .inr (.inl h2)
  rename_i tl1 heq1
  have hm1 : ∀ x : Bunch, x ∈ tl1 → x ∈ tl ∨ ∃ e, bttInitEntry e = some x := by
    intro x hx
    exact runEntries_mem (by rw [heq1]; exact hx)
  split at h
  · rcases hm1 b h with h2 | h2
    · exact .inl h2
    · exact .inr (.inl h2)
  rename_i gs hgs
  split at h
  · rcases hm1 b h with h2 | h2
    · exact .inl h2
    · exact .inr (.inl h2)
  rename_i h13
  split at h
  · rename_i tlg heq2
    rcases runEntries_mem (show b ∈ (runEntries bttGoalEntry
        (findAngle (gs.drop 13)) tl1).2 by rw [heq2]; exact h) with h2 | h2
    · rcases hm1 b h2 with h3 | h3
      · exact .inl h3
      · exact .inr (.inl h3)
    · exact .inr (.inr h2)
  rename_i tlg heq2
  rcases runEntries_mem (show b ∈ (runEntries bttGoalEntry
      (findAngle (gs.drop 13)) tl1).2 by rw [heq2]; exact h) with h2 | h2
  · rcases hm1 b h2 with h3 | h3
    · exact .inl h3
    · exact .inr (.inl h3)
  · exact .inr (.inr h2)

theorem bttExecute_mem {s : Str} {tl : List Bunch} {b : Bunch} :
    b ∈ (bttExecute s tl).2 →
      b ∈ tl ∨ (∃ e, bttInitEntry e = some b) ∨ (∃ e, bttGoalEntry e = some b) := by
  intro h
  simp only [bttExecute] at h
  repeat' split at h
  all_goals first
    | exact bttStage2_mem h
    | exact .inl h

theorem refereeAlias_ne_V20 (o : Str) : refereeAlias o ≠ str "V20" := by
  unfold refereeAlias
  split
  · decide
  · assumption

/-- C1 counterexample: on this input the goalsituation label check fails
after the initial situation was already parsed; `execute` returns the
failure outcome but the record appended from the initial situation
remains in the caller's `task_list`, so the parse is not atomic. -/
theorem claim_C1_counterexample :
    bttExecute (str "BTT<initialsituation(<S1,(M20_100)>);badlabel>") []
      = (.wrongTaskFormat .goalLabel,
         [⟨some (str "source"), some (str "S1"), some [str "M20_100"], none, none, none⟩]) := by
  decide

/-- C1 amended: failures at the prefix, envelope or initialsituation
label checks do return with the caller's `task_list` unchanged, and the
parse only ever appends to the caller's list (never removes or reorders);
but a failure at the goalsituation label check leaves the records already
appended from the initial situation in the caller's `task_list`, as the
concrete run in the last conjunct shows. -/
theorem claim_C1_amended :
    (∀ s tl st tl2, bttExecute s tl = (.wrongTaskFormat st, tl2) →
        st = .goalLabel ∨ tl2 = tl) ∧
    (∀ s tl st tl2, cttExecute s tl = (.wrongTaskFormat st, tl2) →
        st = .goalLabel ∨ tl2 = tl) ∧
    (∀ s tl, ∃ ext, (bttExecute s tl).2 = tl ++ ext) ∧
    (∀ s tl, ∃ ext, (cttExecute s tl).2 = tl ++ ext) ∧
    bttExecute (str "BTT<initialsituation(<S1,(M20_100)>);badlabel>") []
      = (.wrongTaskFormat .goalLabel,
         [⟨some (str "source"), some (str "S1"), some [str "M20_100"], none, none, none⟩]) :=
  ⟨fun _ _ _ _ h => bttExecute_wrongFormat h,
   fun _ _ _ _ h => cttExecute_wrongFormat h,
   bttExecute_extend, cttExecute_extend, by decide⟩

theorem claim_C1_witness :
    FailStage.goalLabel = FailStage.goalLabel ∨
      [(⟨some (str "source"), some (str "S1"), some [str "M20_100"], none, none,
         none⟩ : Bunch)] = ([] : List Bunch) :=
  claim_C1_amended.1 (str "BTT<initialsituation(<S1,(M20_100)>);badlabel>") [] .goalLabel
    [⟨some (str "source"), some (str "S1"), some [str "M20_100"], none, none, none⟩]
    (by decide)

/-- C4 counterexample: the competitive (CTT) parser applies no alias
substitution, so a successfully parsed CTT input stores the deprecated
token `V20` verbatim in both situations' object lists. -/
theorem claim_C4_counterexample :
    (cttExecute (str "CTT<initialsituation(<S1,(V20)>);goalsituation(<D1,(V20)>)>") []).1
        = .taskReceived ∧
    (cttExecute (str "CTT<initialsituation(<S1,(V20)>);goalsituation(<D1,(V20)>)>") []).2.map
        Bunch.object_names = [some [str "V20"], some [str "V20"]] := by
  decide

theorem bttEntry_no_V20 {e : Str} {b : Bunch}
    (hi : bttInitEntry e = some b ∨ bttGoalEntry e = some b) :
    ∀ ns, b.object_names = some ns → str "V20" ∉ ns := by
  intro ns hns hmem
  rcases hi with he | he
  · simp only [bttInitEntry] at he
    split at he
    · simp at he
    rename_i grp rest hfp
    simp only [Option.some.injEq] at he
    rw [← he] at hns
    simp only [Option.some.injEq] at hns
    rw [← hns] at hmem
    rcases List.mem_map.mp hmem with ⟨o, _, hoV⟩
    exact refereeAlias_ne_V20 o hoV
  · simp only [bttGoalEntry] at he
    split at he
    · simp at he
    rename_i grp rest hfp
    simp only [Option.some.injEq] at he
    rw [← he] at hns
    simp only [Option.some.injEq] at hns
    rw [← hns] at hmem
    rcases List.mem_map.mp hmem with ⟨o, _, hoV⟩
    exact refereeAlias_ne_V20 o hoV

/-- C4 amended: alias normalization holds for the transportation (BTT)
parser only — every object token it stores went through the `V20`→`R20`
substitution, so `V20` never appears in any list it appends; the
competitive (CTT) parser stores raw tokens unchanged and keeps `V20`
verbatim, as the second conjunct's concrete run shows. -/
theorem claim_C4_amended :
    (∀ s tl, (∀ b ∈ tl, ∀ ns, b.object_names = some ns → str "V20" ∉ ns) →
        ∀ b ∈ (bttExecute s tl).2, ∀ ns, b.object_names = some ns → str "V20" ∉ ns) ∧
    (cttExecute (str "CTT<initialsituation(<S1,(V20)>);goalsituation(<D1,(V20)>)>") []).2.map
        Bunch.object_names = [some [str "V20"], some [str "V20"]] := by
  constructor
  · intro s tl htl b hb
    rcases bttExecute_mem hb with h | ⟨e, he⟩ | ⟨e, he⟩
    · exact htl b h
    · exact bttEntry_no_V20 (.inl he)
    · exact bttEntry_no_V20 (.inr he)
  · decide

theorem claim_C4_witness :
    str "V20" ∉ [str "R20"] :=
  claim_C4_amended.1 (str "BTT<initialsituation(<S1,(V20)>);goalsituation(<D1,(V20)>)>") []
    (by simp)
    ⟨some (str "source"), some (str "S1"), some [str "R20"], none, none, none⟩
    (by decide) [str "R20"] rfl

/-- C5 counterexample: a CTT placement entry whose location code starts
with `T` does not make the parse fail — the entry is accepted and stores
the orientation left over from the previous `D`-entry (and the same
leftover binding even crosses from the initial to the goal situation). -/
theorem claim_C5_counterexample :
    (cttExecute (str "CTT<initialsituation(<D1,(A)><T3,(B)>);goalsituation(<T2,(C)>)>") []).1
        = .taskReceived ∧
    (cttExecute (str "CTT<initialsituation(<D1,(A)><T3,(B)>);goalsituation(<T2,(C)>)>") []).2.map
        Bunch.orientation = [some (str "W"), some (str "W"), some (str "W")] := by
  decide

/-- C5 amended: a leading `D` stores orientation `W` and a leading `S`
stores `E`; for any other leading character the entry reuses whatever
`base_orientation` a previous entry of the same call bound (even one from
the other situation's loop), and if no entry bound it yet the call dies
with an uncaught `NameError` — it never reports an unmapped-orientation
parse failure. -/
theorem claim_C5_amended :
    (∀ lbl ore item b ore2, item.head? = some 'D' →
        cttEntry lbl ore item = .ok (b, ore2) →
        b.orientation = some (str "W") ∧ ore2 = some (str "W")) ∧
    (∀ lbl ore item b ore2, item.head? = some 'S' →
        cttEntry lbl ore item = .ok (b, ore2) →
        b.orientation = some (str "E") ∧ ore2 = some (str "E")) ∧
    (∀ lbl item c0 v b ore2, item.head? = some c0 → c0 ≠ 'D' → c0 ≠ 'S' →
        cttEntry lbl (some v) item = .ok (b, ore2) →
        b.orientation = some v ∧ ore2 = some v) ∧
    (∀ lbl item c0 r, item.head? = some c0 → c0 ≠ 'D' → c0 ≠ 'S' →
        cttEntry lbl none item ≠ .ok r) ∧
    cttExecute (str "CTT<initialsituation(<T3,(B)>);goalsituation(<D1,(A)>)>") []
      = (.nameError, []) := by
  refine ⟨?_, ?_, ?_, ?_, by decide⟩
  · intro lbl ore item b ore2 hh he
    simp only [cttEntry, hh] at he
    split at he
    · simp at he
    rename_i grp rest hfp
    simp only [reduceIte] at he
    simp only [Except.ok.injEq, Prod.mk.injEq] at he
    obtain ⟨hb, hore⟩ := he
    exact ⟨by rw [← hb], hore.symm⟩
  · intro lbl ore item b ore2 hh he
    simp only [cttEntry, hh] at he
    split at he
    · simp at he
    rename_i grp rest hfp
    rw [if_neg (show ¬('S' : Char) = 'D' by decide)] at he
    simp only [reduceIte] at he
    simp only [Except.ok.injEq, Prod.mk.injEq] at he
    obtain ⟨hb, hore⟩ := he
    exact ⟨by rw [← hb], hore.symm⟩
  · intro lbl item c0 v b ore2 hh hcD hcS he
    simp only [cttEntry, hh, if_neg hcD, if_neg hcS] at he
    split at he
    · simp at he
    rename_i grp rest hfp
    simp only [Except.ok.injEq, Prod.mk.injEq] at he
    obtain ⟨hb, hore⟩ := he
    exact ⟨by rw [← hb], hore.symm⟩
  · intro lbl item c0 r hh hcD hcS he
    cases hfp : findParen (item.drop 3) with
    | nil =>
      simp only [cttEntry, hh, hfp] at he
      exact Except.noConfusion he
    | cons grp rest =>
      simp only [cttEntry, hh, hfp, if_neg hcD, if_neg hcS] at he
      exact Except.noConfusion he

theorem claim_C5_witness :
    ((⟨none, some (str "D1"), some [str "A"], some [],
       some (str "W"), some (str "fetch object workspace")⟩ : Bunch).orientation
        = some (str "W") ∧ some (str "W") = some (str "W")) ∧
    ((⟨none, some (str "T3"), some [str "B"], some [],
       some (str "W"), some (str "fetch object workspace")⟩ : Bunch).orientation
        = some (str "W") ∧ some (str "W") = some (str "W")) :=
  ⟨claim_C5_amended.1 (str "fetch object workspace") none (str "D1,(A)") _ _
      (by decide) rfl,
   claim_C5_amended.2.2.1 (str "fetch object workspace") (str "T3,(B)") 'T' (str "W") _ _
      (by decide) (by decide) (by decide) rfl⟩

/-- C6 counterexample: a successfully parsed BTT input whose
initial-situation entry has a `line` configuration tag produces an
initial record with no `object_config` field at all (the goal record does
carry its tag), contradicting configuration-tag completeness. -/
theorem claim_C6_counterexample :
    (bttExecute (str "BTT<initialsituation(<S1,line(A,B)>);goalsituation(<D1,zigzag(A)>)>")
        []).1 = .taskReceived ∧
    (bttExecute (str "BTT<initialsituation(<S1,line(A,B)>);goalsituation(<D1,zigzag(A)>)>")
        []).2.map Bunch.object_config = [none, some (str "zigzag")] := by
  decide

/-- C6 amended: goal-situation records of the BTT parser and all records
of the CTT parser carry `object_config` equal to the tokens preceding the
first `(` of the entry remainder; but BTT initial-situation records omit
the field entirely (the loop computes `obj_conf` and then discards it). -/
theorem claim_C6_amended :
    (∀ item b, bttInitEntry item = some b → b.object_config = none) ∧
    (∀ item b, bttGoalEntry item = some b → b.object_config = some (objConf item)) ∧
    (∀ lbl ore item b ore2, cttEntry lbl ore item = .ok (b, ore2) →
        b.object_config = some (objConf item)) := by
  refine ⟨?_, ?_, ?_⟩
  · intro item b he
    simp only [bttInitEntry] at he
    split at he
    · simp at he
    rename_i grp rest hfp
    simp only [Option.some.injEq] at he
    rw [← he]
  · intro item b he
    simp only [bttGoalEntry] at he
    split at he
    · simp at he
    rename_i grp rest hfp
    simp only [Option.some.injEq] at he
    rw [← he]
    simp [objConf]
  · intro lbl ore item b ore2 he
    cases hh : item.head? with
    | none => simp [cttEntry, hh] at he
    | some c0 =>
      simp only [cttEntry, hh] at he
      cases hfp : findParen (item.drop 3) with
      | nil => rw [hfp] at he; simp at he
      | cons grp rest =>
        rw [hfp] at he
        cases hor : (if c0 = 'D' then some (str "W")
            else if c0 = 'S' then some (str "E") else ore) with
        | none => rw [hor] at he; simp at he
        | some bo =>
          rw [hor] at he
          simp only [Except.ok.injEq, Prod.mk.injEq] at he
          obtain ⟨hb, _⟩ := he
          rw [← hb]
          simp [objConf]

theorem claim_C6_witness :
    (⟨some (str "source"), some (str "S1"), some [str "A", str "B"], none, none,
        none⟩ : Bunch).object_config = none ∧
    (⟨some (str "destination"), some (str "D1"), some [str "A"], some (str "zigzag"),
        none, none⟩ : Bunch).object_config = some (objConf (str "D1,zigzag(A)")) :=
  ⟨claim_C6_amended.1 (str "S1,line(A,B)") _ (by decide),
   claim_C6_amended.2.1 (str "D1,zigzag(A)") _ (by decide)⟩

/-- C8: `re_get_task.execute` applied to the `task_spec_copy` stored by a
`get_task.execute` call yields the same smach outcome and the same parsed
task as that original call, for every `tasks.parse_task` function, test
type, simulation flag and server-provided string — the two entry points
parse identically. -/
theorem claim_C8_reparse_equivalence :
    ∀ (τ : Type) (parse : Str → Str → Except Unit τ) (test : Str) (simulation : Bool)
      (serverSpec c : Str),
      (getTaskExecute parse test simulation serverSpec).2.2 = some c →
      reGetTaskExecute parse test c
        = ((getTaskExecute parse test simulation serverSpec).1,
           (getTaskExecute parse test simulation serverSpec).2.1) := by
  intro τ parse test simulation serverSpec c h
  cases simulation with
  | false =>
    have hred : getTaskExecute parse test false serverSpec
        = match parse test serverSpec with
          | .ok t => (.taskReceived, some t, some serverSpec)
          | .error _ => (.wrongTaskFormat, none, some serverSpec) := by
      simp [getTaskExecute]
    rw [hred] at h ⊢
    cases hp : parse test serverSpec with
    | ok t =>
      rw [hp] at h
      have hc : serverSpec = c := by simpa using h
      simp only [reGetTaskExecute, ← hc, hp]
    | error err =>
      rw [hp] at h
      have hc : serverSpec = c := by simpa using h
      simp only [reGetTaskExecute, ← hc, hp]
  | true =>
    have hred : getTaskExecute parse test true serverSpec
        = match hardcodedSpecs test with
          | none => (.keyError, none, none)
          | some task_spec =>
            match parse test task_spec with
            | .ok t => (.taskReceived, some t, some task_spec)
            | .error _ => (.wrongTaskFormat, none, some task_spec) := by
      simp [getTaskExecute]
    rw [hred] at h ⊢
    cases hh : hardcodedSpecs test with
    | none =>
      rw [hh] at h
      simp at h
    | some task_spec =>
      rw [hh] at h
      cases hp : parse test task_spec with
      | ok t =>
        have hc : task_spec = c := by simpa [hp] using h
        simp only [reGetTaskExecute, ← hc, hp]
      | error err =>
        have hc : task_spec = c := by simpa [hp] using h
        simp only [reGetTaskExecute, ← hc, hp]

theorem claim_C8_witness :
    reGetTaskExecute demoParse (str "BTT") (str "x")
      = ((getTaskExecute demoParse (str "BTT") false (str "x")).1,
         (getTaskExecute demoParse (str "BTT") false (str "x")).2.1) :=
  claim_C8_reparse_equivalence Nat demoParse (str "BTT") false (str "x") (str "x") rfl

/-- C10: with the simulation flag set, `get_task.execute` ignores the
server-provided string entirely — for the four test types with a
hardcoded specification, two simulated runs with different server strings
produce identical results, and the spec string stored (and parsed) is
exactly the hardcoded one for the declared test type. -/
theorem claim_C10_simulation_determinism :
    ∀ (τ : Type) (parse : Str → Str → Except Unit τ) (test : Str) (s1 s2 : Str),
      (test = str "BNT" ∨ test = str "BMT" ∨ test = str "BTT" ∨ test = str "PPT") →
      getTaskExecute parse test true s1 = getTaskExecute parse test true s2 ∧
      (getTaskExecute parse test true s1).2.2 = hardcodedSpecs test ∧
      (hardcodedSpecs test).isSome := by
  intro τ parse test s1 s2 ht
  have hsome : (hardcodedSpecs test).isSome := by
    rcases ht with rfl | rfl | rfl | rfl <;> decide
  have hred : ∀ s : Str, getTaskExecute parse test true s
      = match hardcodedSpecs test with
        | none => (.keyError, none, none)
        | some task_spec =>
          match parse test task_spec with
          | .ok t => (.taskReceived, some t, some task_spec)
          | .error _ => (.wrongTaskFormat, none, some task_spec) := by
    intro s; simp [getTaskExecute]
  refine ⟨by rw [hred s1, hred s2], ?_, hsome⟩
  rw [hred s1]
  cases hh : hardcodedSpecs test with
  | none => rfl
  | some sp => cases hp : parse test sp <;> simp only [hp]

theorem claim_C10_witness :
    getTaskExecute demoParse (str "BNT") true (str "a")
        = getTaskExecute demoParse (str "BNT") true (str "b") ∧
      (getTaskExecute demoParse (str "BNT") true (str "a")).2.2
        = hardcodedSpecs (str "BNT") ∧
      (hardcodedSpecs (str "BNT")).isSome :=
  claim_C10_simulation_determinism Nat demoParse (str "BNT") (str "a") (str "b") (.inl rfl)
